import Mathlib

/-!
Verification development for the AIChat backend (Python/FastAPI).

The definitions below are a shallow embedding of the streaming chat-turn
orchestrator (`app/api/chat.py, send_message_stream`), the completion stream
adapter (`app/services/azure_openai.py`), the persistence operations used by
the turn (`app/services/cosmos_db.py`) and the text-attachment download
(`app/services/blob_storage.py`).  External collaborators (the completion
backend, the blob store, the clock, uuid generation) are modelled as explicit
oracles/counters; everything the repository's own code computes is translated
directly from the source.
-/

namespace AIChat

/-! ## Basic data shapes (schemas/message.py, cosmos documents) -/

/-- Token-usage record `{"input": N, "output": M}` attached to messages. -/
structure Tokens where
  input : Nat
  output : Nat
  deriving Repr, DecidableEq

/-- `AttachmentRef` from `app/schemas/message.py`: id, type ("image" | "file"),
optional url, fileName, mimeType. -/
structure AttachmentRef where
  id : String
  type : String
  url : Option String
  fileName : Option String
  mimeType : Option String
  deriving Repr, DecidableEq

/-- `ChatRequest` from `app/schemas/message.py` (content plus optional
attachment list). -/
structure ChatRequest where
  content : String
  attachments : Option (List AttachmentRef)
  deriving Repr, DecidableEq

/-- A message document as stored by `CosmosDBService.create_message`:
id and createdAt are produced by the service (uuid / clock), modelled as
counters. -/
structure StoredMessage where
  id : Nat
  conversationId : String
  role : String
  content : String
  attachments : List AttachmentRef
  tokens : Option Tokens
  createdAt : Nat
  deriving Repr, DecidableEq

/-- A conversation document as built by `CosmosDBService.create_conversation`. -/
structure Conversation where
  id : String
  userId : String
  title : String
  systemPrompt : String
  model : String
  messageCount : Nat
  createdAt : Nat
  updatedAt : Nat
  deriving Repr, DecidableEq

/-- The persistent state visible to one turn: the two Cosmos containers plus
the id/clock counters that stand for `uuid.uuid4()` and
`datetime.now(timezone.utc)`. -/
structure DBState where
  conversations : List Conversation
  messages : List StoredMessage
  nextId : Nat
  now : Nat
  deriving Repr, DecidableEq

/-- Python truthiness of an `Optional[str]`: `None` and `""` are falsy. -/
def strTruthy : Option String → Bool
  | none => false
  | some s => s != ""

/-- Python `a or dflt` for an `Optional[str]` (used as
`att.fileName or "uploaded_file"`). -/
def pyOrDefault (o : Option String) (dflt : String) : String :=
  match o with
  | none => dflt
  | some s => if s != "" then s else dflt

/-- Python `str.strip()` (no arguments): drop leading and trailing whitespace.
Implemented on the character list so that it reduces definitionally. -/
def pyStrip (s : String) : String :=
  let l := s.toList.dropWhile Char.isWhitespace
  String.mk ((l.reverse.dropWhile Char.isWhitespace).reverse)

/-- Python slicing `s[:n]` on characters. -/
def pyTake (s : String) (n : Nat) : String := String.mk (s.toList.take n)

/-- Python `s.endswith(suffix)`, on character lists. -/
def pyEndsWith (s suffix : String) : Bool := List.isSuffixOf suffix.data s.data

/-! ## Persistence operations (app/services/cosmos_db.py) -/

/-- `CosmosDBService.get_conversation`: point read by id within the `userId`
partition; `None` when absent (404) or owned by another user. -/
def getConversation (db : DBState) (cid uid : String) : Option Conversation :=
  db.conversations.find? (fun c => c.id == cid && c.userId == uid)

/-- `CosmosDBService.create_message`: builds the message document with a fresh
uuid and the current timestamp and inserts it.  The model returns the document
together with the new state (counters advanced). -/
def createMessage (db : DBState) (cid role content : String)
    (attachments : List AttachmentRef) (tokens : Option Tokens) :
    StoredMessage × DBState :=
  let msg : StoredMessage :=
    { id := db.nextId, conversationId := cid, role := role, content := content,
      attachments := attachments, tokens := tokens, createdAt := db.now }
  (msg, { db with messages := db.messages ++ [msg], nextId := db.nextId + 1,
                  now := db.now + 1 })

/-- Insertion step for sorting by `createdAt` (ascending), modelling the
`ORDER BY c.createdAt ASC` of the Cosmos query. -/
def insertByCreatedAt (m : StoredMessage) :
    List StoredMessage → List StoredMessage
  | [] => [m]
  | x :: xs =>
      if m.createdAt < x.createdAt then m :: x :: xs
      else x :: insertByCreatedAt m xs

/-- Sort a message list by `createdAt` ascending. -/
def sortByCreatedAt : List StoredMessage → List StoredMessage
  | [] => []
  | x :: xs => insertByCreatedAt x (sortByCreatedAt xs)

/-- `CosmosDBService.get_messages_by_conversation`.  Without `before_id` the
query is `WHERE c.conversationId = @cid ORDER BY c.createdAt ASC OFFSET 0
LIMIT @limit`; with `before_id` it selects messages strictly older than the
referenced one, ordered descending, limited. -/
def get_messages_by_conversation (db : DBState) (cid : String) (limit : Nat)
    (beforeId : Option Nat) : List StoredMessage :=
  let conv := db.messages.filter (fun m => m.conversationId == cid)
  match beforeId with
  | none => (sortByCreatedAt conv).take limit
  | some bid =>
      match conv.find? (fun m => m.id == bid) with
      | none => []
      | some ref =>
          ((sortByCreatedAt
              (conv.filter (fun m => m.createdAt < ref.createdAt))).reverse).take
            limit

/-- The history selection as the specification words it: the conversation's
most-recent `limit` messages, returned in ascending chronological order.
This definition follows the spec's words and is compared against
`get_messages_by_conversation` (which the orchestrator calls with limit 20). -/
def specMostRecentAscending (db : DBState) (cid : String) (limit : Nat) :
    List StoredMessage :=
  let conv := sortByCreatedAt (db.messages.filter (fun m => m.conversationId == cid))
  conv.drop (conv.length - limit)

/-- `CosmosDBService.update_conversation` as invoked by the orchestrator,
which only ever passes `{"messageCount": n}` or
`{"messageCount": n, "title": t}` — both entirely inside the allow-list.
The stored document keeps its identity fields, takes the new count (and title
when supplied), and gets a refreshed `updatedAt`; nothing happens when the
conversation is missing or owned by someone else.  (The dictionary-level
embedding of the same function, needed to reason about arbitrary update
dictionaries, is `update_conversation_docs` below.) -/
def updateConversationTyped (db : DBState) (cid uid : String) (newCount : Nat)
    (newTitle : Option String) : DBState :=
  match getConversation db cid uid with
  | none => db
  | some _ =>
      { db with
        conversations := db.conversations.map (fun c =>
          if c.id == cid && c.userId == uid then
            { c with messageCount := newCount,
                     title := newTitle.getD c.title,
                     updatedAt := db.now }
          else c),
        now := db.now + 1 }

/-! ## Blob storage (app/services/blob_storage.py) -/

/-- `BlobStorageService.download_text_file`: the byte download (an external
operation, here an oracle value) returns `none` on any retrieval failure;
empty byte content is falsy in `if content:` and also yields `none`.  The
decode cascade (utf-8, then gbk, then utf-8 ignoring errors) is modelled by
decode oracles; the final fallback is total, so decoding never fails. -/
def download_text_file (bytes? : Option (List Nat))
    (decodeUtf8 : List Nat → Option String) (decodeGbk : List Nat → Option String)
    (decodeLossy : List Nat → String) : Option String :=
  match bytes? with
  | none => none
  | some content =>
      if content != [] then
        match decodeUtf8 content with
        | some s => some s
        | none =>
            match decodeGbk content with
            | some s => some s
            | none => some (decodeLossy content)
      else none

/-! ## Completion stream adapter (app/services/azure_openai.py) -/

/-- One `choices[0].delta` of a raw backend stream chunk. -/
structure RawDelta where
  content : Option String
  finish_reason : Option String
  deriving Repr, DecidableEq

/-- One raw chunk of the backend stream.  `usage` is present on the wire for
backends that report token usage; `chat_completion_stream` never reads it. -/
structure RawChunk where
  choices : List RawDelta
  usage : Option Tokens
  deriving Repr, DecidableEq

/-- Events yielded by `AzureOpenAIService.chat_completion_stream`. -/
inductive SChunk where
  | content_delta (delta : String)
  | finish (finish_reason : String)
  deriving Repr, DecidableEq

/-- The chunk-to-event translation inside `chat_completion_stream`: chunks
without choices are skipped; a truthy `delta.content` yields a
`content_delta`; a truthy `finish_reason` yields a `finish`. -/
def chatCompletionStreamEvents (raws : List RawChunk) : List SChunk :=
  (raws.map (fun c =>
    match c.choices.head? with
    | none => []
    | some d =>
        (match d.content with
         | some s => if s != "" then [SChunk.content_delta s] else []
         | none => []) ++
        (match d.finish_reason with
         | some r => if r != "" then [SChunk.finish r] else []
         | none => []))).flatten

/-- Outcome of consuming the adapter's stream: either it ends normally after
yielding `events`, or it raises after yielding `events` (the exception is
surfaced to the orchestrator's `except` block with message `msg`). -/
inductive StreamResult where
  | ok (events : List SChunk)
  | err (events : List SChunk) (msg : String)
  deriving Repr, DecidableEq

/-! ## Title generation (azure_openai.generate_conversation_title) -/

/-- The quote characters stripped from a generated title
(`title.strip('"\x27""'')` in the source). -/
def titleStripChars : List Char := ['"', '\'', '“', '”', '‘', '’']

/-- Python `str.strip(chars)`: drop leading and trailing characters belonging
to the given set. -/
def stripChars (cs : List Char) (s : String) : String :=
  let l := s.toList.dropWhile (fun c => cs.contains c)
  String.mk ((l.reverse.dropWhile (fun c => cs.contains c)).reverse)

/-- Python `t if t else dflt` on strings. -/
def pyDefaultIfEmpty (t dflt : String) : String := if t != "" then t else dflt

/-- The title clean-up applied to a returned completion content:
default when the content is falsy, strip whitespace then quote characters,
truncate to `max_length`, default again when empty. -/
def cleanTitle (content : Option String) (max_length : Nat) : String :=
  let title :=
    match content with
    | some c => if c != "" then pyStrip c else "新对话"
    | none => "新对话"
  let title := stripChars titleStripChars title
  let title := if title.length > max_length then pyTake title max_length else title
  pyDefaultIfEmpty title "新对话"

/-- `AzureOpenAIService.generate_conversation_title`: the completion call is an
oracle; `none` stands for the call raising, which the function catches itself,
returning the fixed default title. -/
def generate_conversation_title (api : Option (Option String))
    (max_length : Nat) : String :=
  match api with
  | none => "新对话"
  | some content => cleanTitle content max_length

/-! ## Attachment resolution inside `send_message_stream.generate` -/

/-- An entry of `image_attachments`: the orchestrator builds
`{"type": "image", "url": att.url}` for each image attachment with a truthy
url. -/
structure ImageRef where
  type : String
  url : String
  deriving Repr, DecidableEq

/-- An entry of `text_file_contents`: `{"fileName": ..., "content": ...}`. -/
structure TextFileContent where
  fileName : String
  content : String
  deriving Repr, DecidableEq

/-- The `is_text_file` classification: recognized MIME type, or a truthy
filename ending in ".md" or ".txt". -/
def isTextFile (att : AttachmentRef) : Bool :=
  let mime := att.mimeType.getD ""
  (mime == "text/plain" || mime == "text/markdown" ||
    mime == "application/octet-stream") ||
  (match att.fileName with
   | some fn => fn != "" && (pyEndsWith fn ".md" || pyEndsWith fn ".txt")
   | none => false)

/-- One iteration of the attachment loop of `send_message_stream.generate`,
given the contributions `r` of the remaining attachments: an image with a
truthy url is routed to `image_attachments`; a file attachment with a truthy
url that classifies as text is fetched (`fetch` is the
`blob_service.download_text_file` collaborator) and, when the result is
truthy, contributes a `text_file_contents` entry.  A fetch returning `none`
(or empty text) contributes nothing. -/
def resolveStep (fetch : String → Option String) (att : AttachmentRef)
    (r : List ImageRef × List TextFileContent) :
    List ImageRef × List TextFileContent :=
  if att.type == "image" && strTruthy att.url then
    ({ type := "image", url := att.url.getD "" } :: r.1, r.2)
  else if att.type == "file" && strTruthy att.url then
    if isTextFile att then
      match fetch (att.url.getD "") with
      | some c =>
          if c != "" then
            (r.1, { fileName := pyOrDefault att.fileName "uploaded_file",
                    content := c } :: r.2)
          else r
      | none => r
    else r
  else r

/-- The attachment loop of `send_message_stream.generate`, processing the
attachment list in order and accumulating `image_attachments` and
`text_file_contents`. -/
def resolveAttachments (fetch : String → Option String) :
    List AttachmentRef → List ImageRef × List TextFileContent
  | [] => ([], [])
  | att :: rest => resolveStep fetch att (resolveAttachments fetch rest)

/-! ## Enhanced user message (send_message_stream.generate) -/

/-- The default instruction substituted when the message text is blank but an
image is attached. -/
def defaultImagePrompt : String := "请描述并分析这张图片的内容。"

/-- The instruction prepended when text-file content is attached to an
otherwise empty message. -/
def analyzeFileInstr : String := "请分析以下文件内容："

/-- Header opening the appended file-content section. -/
def fileContextHeader : String := "\n\n---\n以下是用户上传的文件内容：\n"

/-- One delimited block per uploaded text file: filename header plus fenced
body. -/
def fileBlock (f : TextFileContent) : String :=
  "\n【文件: " ++ f.fileName ++ "】\n```\n" ++ f.content ++ "\n```\n"

/-- The `file_context` string accumulated over `text_file_contents`. -/
def fileContext (txts : List TextFileContent) : String :=
  fileContextHeader ++ String.join (txts.map fileBlock)

/-- The `enhanced_message` computation: substitute the default image prompt
when the stripped content is empty and images are present; then append the
file-context block, prefixing the analyze-file instruction when the message
is (still) empty. -/
def enhancedMessage (content : String) (imgs : List ImageRef)
    (txts : List TextFileContent) : String :=
  let m := if pyStrip content == "" && imgs != [] then defaultImagePrompt else content
  if txts != [] then
    if m != "" then m ++ fileContext txts
    else analyzeFileInstr ++ fileContext txts
  else m

/-! ## Message assembly (AzureOpenAIService._build_messages) -/

/-- One part of a multi-part (vision) user message. -/
inductive ContentPart where
  | text (text : String)
  | image_url (url : String) (detail : String)
  deriving Repr, DecidableEq

/-- The content of an API message: plain string or multi-part list. -/
inductive MsgContent where
  | str (s : String)
  | parts (ps : List ContentPart)
  deriving Repr, DecidableEq

/-- One entry of the message array sent to the completion API. -/
structure ApiMessage where
  role : String
  content : MsgContent
  deriving Repr, DecidableEq

/-- A history entry handed to `_build_messages` (`{"role": ..., "content":
...}`). -/
structure HistMsg where
  role : String
  content : String
  deriving Repr, DecidableEq

/-- The `history_for_api` comprehension: keep only user/assistant messages,
project role and content, preserving order. -/
def historyForApi (history : List StoredMessage) : List HistMsg :=
  (history.filter (fun m => m.role == "user" || m.role == "assistant")).map
    (fun m => { role := m.role, content := m.content })

/-- `AzureOpenAIService._build_messages`: system prompt first, history in
order, then the user entry — multi-part (text part, then one image part per
image attachment with detail "auto") when the attachment list is truthy,
plain text otherwise. -/
def buildMessages (system_prompt : String) (history : List HistMsg)
    (user_message : String) (attachments : Option (List ImageRef)) :
    List ApiMessage :=
  let msgs := { role := "system", content := MsgContent.str system_prompt } ::
    history.map (fun m => { role := m.role, content := MsgContent.str m.content })
  let atts := attachments.getD []
  if atts != [] then
    let content := ContentPart.text user_message ::
      atts.filterMap (fun a =>
        if a.type == "image" then some (ContentPart.image_url a.url "auto")
        else none)
    msgs ++ [{ role := "user", content := MsgContent.parts content }]
  else
    msgs ++ [{ role := "user", content := MsgContent.str user_message }]

/-! ## The streaming turn orchestrator (send_message_stream) -/

/-- Server-sent events emitted to the client, with their data payloads
modelled structurally (`conversationTitle` is present in `message_end` only
when a truthy new title exists). -/
inductive SSEEvent where
  | message_start (userMessageId : Nat)
  | content_delta (delta : String)
  | message_end (messageId : Nat) (tokens : Tokens)
      (conversationTitle : Option String)
  | error (error : String)
  deriving Repr, DecidableEq

/-- Side effects performed by the turn, in program order (used to state the
durability-ordering claim). -/
inductive Effect where
  | getConversation
  | getMessages
  | createMessage (role : String)
  | blobFetch (url : String)
  | completionCall
  | titleCall
  | updateConversation
  deriving Repr, DecidableEq

/-- The `blob_service.download_text_file` calls attempted by the attachment
loop, in order. -/
def fetchEffects (atts : List AttachmentRef) : List Effect :=
  (atts.filter (fun a => a.type == "file" && strTruthy a.url && isTextFile a)).map
    (fun a => Effect.blobFetch (a.url.getD ""))

/-- Outcome of the title step on a first turn.  `api o` means
`generate_conversation_title` ran with backend outcome `o` (it catches its own
failures); `raised` means an exception escaped into the orchestrator's
`except` block before the conversation update was applied, so only the
message count is updated there. -/
inductive TitleStep where
  | api (outcome : Option (Option String))
  | raised
  deriving Repr, DecidableEq

/-- The `title_content` selection for a first turn: the stripped request
content, else fixed fallbacks depending on attachments. -/
def titleContent (content : String) (imgs : List ImageRef)
    (txts : List TextFileContent) : String :=
  let tc := pyStrip content
  if tc != "" then tc
  else if imgs != [] then "图片分析对话"
  else
    match txts with
    | f :: _ => "文件分析: " ++ f.fileName
    | [] => "新对话"

/-- Per-turn context fixed before the stream is consumed. -/
structure GenCtx where
  conversation : Conversation
  cid : String
  uid : String
  reqContent : String
  imgs : List ImageRef
  txts : List TextFileContent
  titleApi : String → TitleStep

/-- Mutable state of the `generate` coroutine: the accumulated reply, the
events yielded so far, the database, the effect trace, and `message_id`. -/
structure GenState where
  full_content : String
  events : List SSEEvent
  db : DBState
  effects : List Effect
  message_id : Option Nat

/-- Processing of one adapter chunk inside the `async for` loop of
`send_message_stream.generate`: a `content_delta` is accumulated and
forwarded; a `finish` persists the assistant message with the (never-updated)
zero token counters, runs the title/count update, and emits `message_end`. -/
def processChunk (ctx : GenCtx) (s : GenState) : SChunk → GenState
  | SChunk.content_delta d =>
      { s with full_content := s.full_content ++ d,
               events := s.events ++ [SSEEvent.content_delta d] }
  | SChunk.finish _ =>
      let streamTokens : Tokens := { input := 0, output := 0 }
      let created := createMessage s.db ctx.cid "assistant" s.full_content []
        (some streamTokens)
      let am := created.1
      let db1 := created.2
      let effects1 := s.effects ++ [Effect.createMessage "assistant"]
      if ctx.conversation.messageCount == 0 then
        match ctx.titleApi (titleContent ctx.reqContent ctx.imgs ctx.txts) with
        | TitleStep.api outcome =>
            let t := generate_conversation_title outcome 20
            { full_content := s.full_content,
              events := s.events ++
                [SSEEvent.message_end am.id streamTokens
                  (if t != "" then some t else none)],
              db := updateConversationTyped db1 ctx.cid ctx.uid 2 (some t),
              effects := effects1 ++ [Effect.titleCall, Effect.updateConversation],
              message_id := some am.id }
        | TitleStep.raised =>
            { full_content := s.full_content,
              events := s.events ++
                [SSEEvent.message_end am.id streamTokens none],
              db := updateConversationTyped db1 ctx.cid ctx.uid 2 none,
              effects := effects1 ++ [Effect.titleCall, Effect.updateConversation],
              message_id := some am.id }
      else
        { full_content := s.full_content,
          events := s.events ++ [SSEEvent.message_end am.id streamTokens none],
          db := updateConversationTyped db1 ctx.cid ctx.uid
            (ctx.conversation.messageCount + 2) none,
          effects := effects1 ++ [Effect.updateConversation],
          message_id := some am.id }

/-- Consuming the adapter stream: fold the chunks; when the adapter raises
after a prefix of events, the `except` handler emits a single `error` event. -/
def runStream (ctx : GenCtx) (s0 : GenState) : StreamResult → GenState
  | StreamResult.ok evs => evs.foldl (processChunk ctx) s0
  | StreamResult.err evs msg =>
      let s := evs.foldl (processChunk ctx) s0
      { s with events := s.events ++ [SSEEvent.error msg] }

/-- Result of one streaming turn: the SSE events in emission order, the final
database state, the effect trace, and the message array that was passed to
`chat_completion_stream`. -/
structure TurnResult where
  events : List SSEEvent
  db : DBState
  effects : List Effect
  apiMessages : List ApiMessage

/-- `send_message_stream`: validate ownership, read the recent history (limit
20), persist the user message immediately, then run the SSE generator —
resolve attachments, build the enhanced message and the API message array,
yield `message_start`, call the completion stream and process its chunks.
`fetch` models `blob_service.download_text_file`, `stream` the adapter
outcome, `titleApi` the title-generation backend. -/
def sendMessageStream (db0 : DBState) (cid uid : String) (req : ChatRequest)
    (fetch : String → Option String) (stream : StreamResult)
    (titleApi : String → TitleStep) : Option TurnResult :=
  match getConversation db0 cid uid with
  | none => none
  | some conversation =>
      let history := get_messages_by_conversation db0 cid 20 none
      let atts := req.attachments.getD []
      let created := createMessage db0 cid "user" req.content atts none
      let userMsg := created.1
      let db1 := created.2
      let histApi := historyForApi history
      let resolved := resolveAttachments fetch atts
      let imgs := resolved.1
      let txts := resolved.2
      let enhanced := enhancedMessage req.content imgs txts
      let apiMsgs := buildMessages conversation.systemPrompt histApi enhanced
        (if imgs != [] then some imgs else none)
      let ctx : GenCtx :=
        { conversation := conversation, cid := cid, uid := uid,
          reqContent := req.content, imgs := imgs, txts := txts,
          titleApi := titleApi }
      let s0 : GenState :=
        { full_content := "",
          events := [SSEEvent.message_start userMsg.id],
          db := db1,
          effects := [Effect.getConversation, Effect.getMessages,
              Effect.createMessage "user"] ++ fetchEffects atts ++
            [Effect.completionCall],
          message_id := none }
      let s := runStream ctx s0 stream
      some { events := s.events, db := s.db, effects := s.effects,
             apiMessages := apiMsgs }

/-! ## Dictionary-level model of `update_conversation`

`CosmosDBService.update_conversation` copies arbitrary keys of a Python
dictionary through an allow-list onto the stored document.  To reason about
arbitrary update dictionaries (including keys the orchestrator never passes),
the document and update dictionaries are modelled as ordered key/value lists
with Python-dict assignment semantics. -/

/-- A dynamically typed value stored in a document. -/
inductive Val where
  | str (s : String)
  | nat (n : Nat)
  | bool (b : Bool)
  deriving Repr, DecidableEq

/-- A document / Python dict: ordered association list (keys unique for
documents built by the service). -/
abbrev Doc := List (String × Val)

/-- Dict lookup. -/
def dictGet (d : Doc) (k : String) : Option Val :=
  (d.find? (fun kv => kv.1 == k)).map (fun kv => kv.2)

/-- Python dict assignment: replace the value at the first occurrence of the
key, preserving order; append when absent. -/
def dictSet : Doc → String → Val → Doc
  | [], k, v => [(k, v)]
  | kv :: rest, k, v =>
      if kv.1 == k then (k, v) :: rest else kv :: dictSet rest k v

/-- The update allow-list of `update_conversation`. -/
def allowed_updates : List String := ["title", "systemPrompt", "model", "messageCount"]

/-- The `for key, value in updates.items(): if key in allowed_updates:` loop. -/
def applyAllowedUpdates (d : Doc) (updates : List (String × Val)) : Doc :=
  updates.foldl (fun acc kv =>
    if kv.1 ∈ allowed_updates then dictSet acc kv.1 kv.2 else acc) d

/-- The document `update_conversation` writes back: allow-listed updates
applied, then `updatedAt` refreshed. -/
def updatedDoc (d : Doc) (updates : List (String × Val)) (now : String) : Doc :=
  dictSet (applyAllowedUpdates d updates) "updatedAt" (Val.str now)

/-- The ownership point-read at document level (`get_conversation`). -/
def isConvDoc (d : Doc) (cid uid : String) : Bool :=
  dictGet d "id" == some (Val.str cid) && dictGet d "userId" == some (Val.str uid)

/-- Document-level `get_conversation` over a stored collection. -/
def get_conversation_doc (store : List Doc) (cid uid : String) : Option Doc :=
  store.find? (fun d => isConvDoc d cid uid)

/-- `CosmosDBService.update_conversation` at document level: re-read the owned
document (returning `none` and writing nothing when absent), apply the
allow-listed updates, refresh `updatedAt`, and replace the stored document. -/
def update_conversation_docs (store : List Doc) (cid uid : String)
    (updates : List (String × Val)) (now : String) : Option Doc × List Doc :=
  match get_conversation_doc store cid uid with
  | none => (none, store)
  | some d =>
      let d2 := updatedDoc d updates now
      (some d2, store.map (fun e => if isConvDoc e cid uid then d2 else e))

/-- Value of the last occurrence of a key in an update list (for a Python
dict the key occurs at most once; the general statement handles repetition
with last-wins, matching the assignment loop). -/
def lookupLast : List (String × Val) → String → Option Val
  | [], _ => none
  | kv :: rest, k =>
      match lookupLast rest k with
      | some v => some v
      | none => if kv.1 == k then some kv.2 else none

/-! ## Supporting lemmas -/

theorem strAppend_empty (s : String) : s ++ "" = s := by
  cases s with
  | mk data =>
      show String.mk (data ++ []) = String.mk data
      rw [List.append_nil]

theorem strAppend_assoc (a b c : String) : a ++ b ++ c = a ++ (b ++ c) := by
  cases a with
  | mk da =>
      cases b with
      | mk db =>
          cases c with
          | mk dc =>
              show String.mk (da ++ db ++ dc) = String.mk (da ++ (db ++ dc))
              rw [List.append_assoc]

theorem strJoin_foldl (l : List String) (a : String) :
    l.foldl (fun r s => r ++ s) a = a ++ String.join l := by
  induction l generalizing a with
  | nil => simp [String.join, strAppend_empty]
  | cons x xs ih =>
      show xs.foldl (fun r s => r ++ s) (a ++ x) = a ++ String.join (x :: xs)
      rw [ih (a ++ x)]
      have hx : String.join (x :: xs) = x ++ String.join xs := by
        show (x :: xs).foldl (fun r s => r ++ s) "" = x ++ String.join xs
        show xs.foldl (fun r s => r ++ s) ("" ++ x) = x ++ String.join xs
        rw [ih ("" ++ x)]
        cases x with
        | mk dx =>
            show String.mk ([] ++ dx) ++ String.join xs = String.mk dx ++ String.join xs
            rw [List.nil_append]
      rw [hx, strAppend_assoc]

theorem strJoin_cons (x : String) (xs : List String) :
    String.join (x :: xs) = x ++ String.join xs := by
  show (x :: xs).foldl (fun r s => r ++ s) "" = x ++ String.join xs
  show xs.foldl (fun r s => r ++ s) ("" ++ x) = x ++ String.join xs
  rw [strJoin_foldl]
  cases x with
  | mk dx =>
      show String.mk ([] ++ dx) ++ String.join xs = String.mk dx ++ String.join xs
      rw [List.nil_append]

theorem dictGet_dictSet_self (d : Doc) (k : String) (v : Val) :
    dictGet (dictSet d k v) k = some v := by
  induction d with
  | nil => simp [dictSet, dictGet]
  | cons kv rest ih =>
      by_cases h : kv.1 = k
      · simp [dictSet, dictGet, h]
      · have hb : (kv.1 == k) = false := by simp [h]
        simp [dictSet, hb, dictGet] at ih ⊢
        exact ih

theorem dictGet_dictSet_ne (d : Doc) (k k' : String) (v : Val) (h : k' ≠ k) :
    dictGet (dictSet d k v) k' = dictGet d k' := by
  induction d with
  | nil => simp [dictSet, dictGet, Ne.symm h]
  | cons kv rest ih =>
      by_cases hk : kv.1 = k
      · have hb : (kv.1 == k) = true := by simp [hk]
        have hkv : (kv.1 == k') = false := by simp [hk, Ne.symm h]
        simp [dictSet, hb, dictGet, Ne.symm h, hkv]
      · have hb : (kv.1 == k) = false := by simp [hk]
        have hDS : dictSet (kv :: rest) k v = kv :: dictSet rest k v := by
          simp [dictSet, hb]
        rw [hDS]
        by_cases hk' : kv.1 = k'
        · have hb' : (kv.1 == k') = true := by simp [hk']
          simp [dictGet, List.find?, hb']
        · have hb' : (kv.1 == k') = false := by simp [hk']
          simp [dictGet, List.find?, hb'] at ih ⊢
          exact ih

theorem applyAllowedUpdates_not_allowed (d : Doc) (updates : List (String × Val))
    (k : String) (hk : ¬ k ∈ allowed_updates) :
    dictGet (applyAllowedUpdates d updates) k = dictGet d k := by
  induction updates generalizing d with
  | nil => rfl
  | cons kv rest ih =>
      show dictGet (applyAllowedUpdates
        (if kv.1 ∈ allowed_updates then dictSet d kv.1 kv.2 else d) rest) k =
        dictGet d k
      by_cases hc : kv.1 ∈ allowed_updates
      · have hne : k ≠ kv.1 := fun he => hk (he ▸ hc)
        rw [if_pos hc, ih (dictSet d kv.1 kv.2),
          dictGet_dictSet_ne d kv.1 k kv.2 hne]
      · rw [if_neg hc, ih d]

theorem applyAllowedUpdates_allowed (d : Doc) (updates : List (String × Val))
    (k : String) (hk : k ∈ allowed_updates) :
    dictGet (applyAllowedUpdates d updates) k =
      match lookupLast updates k with
      | some v => some v
      | none => dictGet d k := by
  induction updates generalizing d with
  | nil => rfl
  | cons kv rest ih =>
      show dictGet (applyAllowedUpdates
        (if kv.1 ∈ allowed_updates then dictSet d kv.1 kv.2 else d) rest) k = _
      by_cases he : kv.1 = k
      · have hc : kv.1 ∈ allowed_updates := he ▸ hk
        rw [if_pos hc, ih (dictSet d kv.1 kv.2)]
        have hl : lookupLast (kv :: rest) k =
            match lookupLast rest k with
            | some v => some v
            | none => some kv.2 := by
          show (match lookupLast rest k with
            | some v => some v
            | none => if kv.1 == k then some kv.2 else none) = _
          have hb : (kv.1 == k) = true := by simp [he]
          rw [hb]
          cases lookupLast rest k <;> rfl
        rw [hl]
        cases lookupLast rest k with
        | none =>
            show dictGet (dictSet d kv.1 kv.2) k = some kv.2
            rw [he]
            exact dictGet_dictSet_self d k kv.2
        | some v => rfl
      · have hl : lookupLast (kv :: rest) k = lookupLast rest k := by
          show (match lookupLast rest k with
            | some v => some v
            | none => if kv.1 == k then some kv.2 else none) = _
          have hb : (kv.1 == k) = false := by simp [he]
          rw [hb]
          cases lookupLast rest k <;> rfl
        rw [hl]
        by_cases hc : kv.1 ∈ allowed_updates
        · rw [if_pos hc, ih (dictSet d kv.1 kv.2),
            dictGet_dictSet_ne d kv.1 k kv.2 (fun h2 => he h2.symm)]
        · rw [if_neg hc, ih d]

theorem find?_map_ite {α : Type} (p : α → Bool) (f : α → α)
    (hp : ∀ a, p a = true → p (f a) = true) :
    ∀ (l : List α) (c : α), l.find? p = some c →
      (l.map (fun x => if p x then f x else x)).find? p = some (f c) := by
  intro l
  induction l with
  | nil => intro c h; cases h
  | cons a rest ih =>
      intro c h
      by_cases ha : p a = true
      · have h1 : (a :: rest).find? p = some a := List.find?_cons_of_pos _ ha
        rw [h1] at h
        injection h with h2
        subst h2
        simp only [List.map_cons]
        rw [if_pos ha]
        exact List.find?_cons_of_pos _ (hp a ha)
      · have hfa : p a = false := by
          cases hh : p a with
          | true => exact absurd hh ha
          | false => rfl
        rw [List.find?_cons_of_neg _ (by simp [hfa])] at h
        simp only [List.map_cons]
        rw [if_neg (by simp [hfa]), List.find?_cons_of_neg _ (by simp [hfa])]
        exact ih c h

/-- The attachment list of a request (`chat_request.attachments or []`). -/
def turnAtts (req : ChatRequest) : List AttachmentRef := req.attachments.getD []

/-- The `image_attachments` computed by the turn. -/
def turnImgs (fetch : String → Option String) (req : ChatRequest) : List ImageRef :=
  (resolveAttachments fetch (turnAtts req)).1

/-- The `text_file_contents` computed by the turn. -/
def turnTxts (fetch : String → Option String) (req : ChatRequest) :
    List TextFileContent :=
  (resolveAttachments fetch (turnAtts req)).2

/-- The message array the turn passes to `chat_completion_stream`. -/
def turnApiMessages (conversation : Conversation) (db0 : DBState)
    (cid : String) (req : ChatRequest) (fetch : String → Option String) :
    List ApiMessage :=
  buildMessages conversation.systemPrompt
    (historyForApi (get_messages_by_conversation db0 cid 20 none))
    (enhancedMessage req.content (turnImgs fetch req) (turnTxts fetch req))
    (if turnImgs fetch req != [] then some (turnImgs fetch req) else none)

/-- The per-turn context of the generator. -/
def turnCtx (conversation : Conversation) (cid uid : String) (req : ChatRequest)
    (fetch : String → Option String) (titleApi : String → TitleStep) : GenCtx :=
  { conversation := conversation, cid := cid, uid := uid,
    reqContent := req.content, imgs := turnImgs fetch req,
    txts := turnTxts fetch req, titleApi := titleApi }

/-- The generator state right before the completion stream is consumed. -/
def turnS0 (db0 : DBState) (cid : String) (req : ChatRequest) : GenState :=
  { full_content := "",
    events := [SSEEvent.message_start db0.nextId],
    db := (createMessage db0 cid "user" req.content (turnAtts req) none).2,
    effects := [Effect.getConversation, Effect.getMessages,
        Effect.createMessage "user"] ++ fetchEffects (turnAtts req) ++
      [Effect.completionCall],
    message_id := none }

/-- Characterization of a validated turn in terms of the named components. -/
theorem sendMessageStream_found (db0 : DBState) (cid uid : String)
    (req : ChatRequest) (fetch : String → Option String) (stream : StreamResult)
    (titleApi : String → TitleStep) (conversation : Conversation)
    (hconv : getConversation db0 cid uid = some conversation) :
    sendMessageStream db0 cid uid req fetch stream titleApi =
      some
        { events := (runStream (turnCtx conversation cid uid req fetch titleApi)
            (turnS0 db0 cid req) stream).events,
          db := (runStream (turnCtx conversation cid uid req fetch titleApi)
            (turnS0 db0 cid req) stream).db,
          effects := (runStream (turnCtx conversation cid uid req fetch titleApi)
            (turnS0 db0 cid req) stream).effects,
          apiMessages := turnApiMessages conversation db0 cid req fetch } := by
  unfold sendMessageStream
  rw [hconv]
  rfl

theorem foldl_deltas (ctx : GenCtx) (s : GenState) (ds : List String) :
    (ds.map SChunk.content_delta).foldl (processChunk ctx) s =
      { s with full_content := s.full_content ++ String.join ds,
               events := s.events ++ ds.map SSEEvent.content_delta } := by
  induction ds generalizing s with
  | nil =>
      cases s
      simp [String.join, strAppend_empty]
  | cons d rest ih =>
      simp only [List.map_cons, List.foldl_cons]
      rw [show processChunk ctx s (SChunk.content_delta d) =
        { s with full_content := s.full_content ++ d,
                 events := s.events ++ [SSEEvent.content_delta d] } from rfl]
      rw [ih]
      cases s
      simp [strJoin_cons, strAppend_assoc]

theorem getConversation_updateTyped (db : DBState) (cid uid : String)
    (n : Nat) (topt : Option String) (c : Conversation)
    (h : getConversation db cid uid = some c) :
    getConversation (updateConversationTyped db cid uid n topt) cid uid =
      some { c with messageCount := n, title := topt.getD c.title,
                    updatedAt := db.now } := by
  unfold updateConversationTyped
  rw [h]
  have h' : List.find? (fun a => a.id == cid && a.userId == uid) db.conversations
      = some c := h
  exact find?_map_ite (fun a => a.id == cid && a.userId == uid)
    (fun a => { a with messageCount := n, title := topt.getD a.title,
                       updatedAt := db.now })
    (fun a ha => ha) db.conversations c h'

theorem updateTyped_messages (db : DBState) (cid uid : String) (n : Nat)
    (topt : Option String) :
    (updateConversationTyped db cid uid n topt).messages = db.messages := by
  unfold updateConversationTyped
  cases getConversation db cid uid <;> rfl

theorem pyDefaultIfEmpty_ne (t dflt : String) (hd : dflt ≠ "") :
    pyDefaultIfEmpty t dflt ≠ "" := by
  unfold pyDefaultIfEmpty
  by_cases h : t = ""
  · simp [h]
    exact hd
  · simp [h]

theorem generate_title_ne_empty (api : Option (Option String)) :
    generate_conversation_title api 20 ≠ "" := by
  cases api with
  | none => decide
  | some content =>
      show cleanTitle content 20 ≠ ""
      unfold cleanTitle
      exact pyDefaultIfEmpty_ne _ _ (by decide)

theorem processChunk_finish (ctx : GenCtx) (s : GenState) (r : String) :
    ∃ (t : Option String) (effs2 : List Effect),
      processChunk ctx s (SChunk.finish r) =
        { full_content := s.full_content,
          events := s.events ++
            [SSEEvent.message_end s.db.nextId { input := 0, output := 0 } t],
          db := updateConversationTyped
            (createMessage s.db ctx.cid "assistant" s.full_content []
              (some { input := 0, output := 0 })).2 ctx.cid ctx.uid
            (if ctx.conversation.messageCount == 0 then 2
             else ctx.conversation.messageCount + 2) t,
          effects := s.effects ++ [Effect.createMessage "assistant"] ++ effs2,
          message_id := some s.db.nextId } := by
  by_cases hmc : ctx.conversation.messageCount = 0
  · have hb : (ctx.conversation.messageCount == 0) = true := by simp [hmc]
    cases hstep : ctx.titleApi (titleContent ctx.reqContent ctx.imgs ctx.txts) with
    | api outcome =>
        refine ⟨some (generate_conversation_title outcome 20),
          [Effect.titleCall, Effect.updateConversation], ?_⟩
        have ht := generate_title_ne_empty outcome
        simp only [processChunk, hb, hstep, if_true]
        simp only [ht, ne_eq, not_false_eq_true, bne_iff_ne, if_true, if_pos]
        rfl
    | raised =>
        refine ⟨none, [Effect.titleCall, Effect.updateConversation], ?_⟩
        simp only [processChunk, hb, hstep, if_true]
        rfl
  · have hb : (ctx.conversation.messageCount == 0) = false := by simp [hmc]
    refine ⟨none, [Effect.updateConversation], ?_⟩
    simp only [processChunk, hb, Bool.false_eq_true, if_false]
    rfl

theorem runStream_ok (ctx : GenCtx) (s0 : GenState) (ds : List String)
    (r : String) :
    runStream ctx s0
        (StreamResult.ok (ds.map SChunk.content_delta ++ [SChunk.finish r])) =
      processChunk ctx
        { s0 with full_content := s0.full_content ++ String.join ds,
                  events := s0.events ++ ds.map SSEEvent.content_delta }
        (SChunk.finish r) := by
  show (ds.map SChunk.content_delta ++ [SChunk.finish r]).foldl
    (processChunk ctx) s0 = _
  rw [List.foldl_append, foldl_deltas]
  rfl

theorem runStream_err (ctx : GenCtx) (s0 : GenState) (ds : List String)
    (msg : String) :
    runStream ctx s0 (StreamResult.err (ds.map SChunk.content_delta) msg) =
      { s0 with full_content := s0.full_content ++ String.join ds,
                events := (s0.events ++ ds.map SSEEvent.content_delta) ++
                  [SSEEvent.error msg] } := by
  show (let s := (ds.map SChunk.content_delta).foldl (processChunk ctx) s0
    { s with events := s.events ++ [SSEEvent.error msg] }) = _
  rw [foldl_deltas]

theorem foldl_effects_extend (ctx : GenCtx) (chunks : List SChunk) :
    ∀ s : GenState, ∃ tail,
      (chunks.foldl (processChunk ctx) s).effects = s.effects ++ tail := by
  induction chunks with
  | nil => intro s; exact ⟨[], (List.append_nil _).symm⟩
  | cons c cs ih =>
      intro s
      cases c with
      | content_delta d =>
          obtain ⟨tail, htail⟩ := ih
            { s with full_content := s.full_content ++ d,
                     events := s.events ++ [SSEEvent.content_delta d] }
          exact ⟨tail, htail⟩
      | finish r =>
          obtain ⟨t, effs2, hfin⟩ := processChunk_finish ctx s r
          obtain ⟨tail, htail⟩ := ih (processChunk ctx s (SChunk.finish r))
          refine ⟨[Effect.createMessage "assistant"] ++ effs2 ++ tail, ?_⟩
          rw [List.foldl_cons, htail, hfin]
          simp [List.append_assoc]

theorem foldl_messages_extend (ctx : GenCtx) (chunks : List SChunk) :
    ∀ s : GenState, ∃ more,
      (chunks.foldl (processChunk ctx) s).db.messages =
        s.db.messages ++ more := by
  induction chunks with
  | nil => intro s; exact ⟨[], (List.append_nil _).symm⟩
  | cons c cs ih =>
      intro s
      cases c with
      | content_delta d =>
          obtain ⟨more, hmore⟩ := ih
            { s with full_content := s.full_content ++ d,
                     events := s.events ++ [SSEEvent.content_delta d] }
          exact ⟨more, hmore⟩
      | finish r =>
          obtain ⟨t, effs2, hfin⟩ := processChunk_finish ctx s r
          obtain ⟨more, hmore⟩ := ih (processChunk ctx s (SChunk.finish r))
          refine ⟨[(createMessage s.db ctx.cid "assistant" s.full_content []
            (some { input := 0, output := 0 })).1] ++ more, ?_⟩
          rw [List.foldl_cons, hmore, hfin]
          dsimp only
          rw [updateTyped_messages]
          show (s.db.messages ++ [_]) ++ more = _
          rw [List.append_assoc]
          rfl

theorem runStream_effects_extend (ctx : GenCtx) (s0 : GenState)
    (stream : StreamResult) :
    ∃ tail, (runStream ctx s0 stream).effects = s0.effects ++ tail := by
  cases stream with
  | ok evs => exact foldl_effects_extend ctx evs s0
  | err evs msg =>
      obtain ⟨tail, htail⟩ := foldl_effects_extend ctx evs s0
      exact ⟨tail, htail⟩

theorem runStream_messages_extend (ctx : GenCtx) (s0 : GenState)
    (stream : StreamResult) :
    ∃ more, (runStream ctx s0 stream).db.messages = s0.db.messages ++ more := by
  cases stream with
  | ok evs => exact foldl_messages_extend ctx evs s0
  | err evs msg =>
      obtain ⟨more, hmore⟩ := foldl_messages_extend ctx evs s0
      exact ⟨more, hmore⟩

/-! ## Claim theorems -/

/-- C1: For every successful turn (the adapter yields its deltas and then a
single terminal `finish`), the conversation's `messageCount` afterwards equals
its value before the turn plus 2, and exactly one user message and one
assistant message were appended for the turn; when the stream fails before a
`finish` (so the assistant message is never created), `messageCount` is not
incremented and the already-persisted user message is the sole new artifact. -/
theorem C1_messageCount_turn_invariant
    (db0 : DBState) (cid uid : String) (req : ChatRequest)
    (fetch : String → Option String) (titleApi : String → TitleStep)
    (conversation : Conversation)
    (hconv : getConversation db0 cid uid = some conversation)
    (ds : List String) (r msg : String) :
    (∃ res um am,
        sendMessageStream db0 cid uid req fetch
          (StreamResult.ok (ds.map SChunk.content_delta ++ [SChunk.finish r]))
          titleApi = some res ∧
        res.db.messages = db0.messages ++ [um, am] ∧
        um.role = "user" ∧ am.role = "assistant" ∧
        (getConversation res.db cid uid).map Conversation.messageCount =
          some (conversation.messageCount + 2)) ∧
    (∃ res um,
        sendMessageStream db0 cid uid req fetch
          (StreamResult.err (ds.map SChunk.content_delta) msg) titleApi =
          some res ∧
        res.db.messages = db0.messages ++ [um] ∧ um.role = "user" ∧
        (getConversation res.db cid uid).map Conversation.messageCount =
          some conversation.messageCount) := by
  constructor
  · rw [sendMessageStream_found db0 cid uid req fetch
      (StreamResult.ok (ds.map SChunk.content_delta ++ [SChunk.finish r]))
      titleApi conversation hconv, runStream_ok]
    obtain ⟨t, effs2, hfin⟩ := processChunk_finish
      (turnCtx conversation cid uid req fetch titleApi)
      { turnS0 db0 cid req with
        full_content := (turnS0 db0 cid req).full_content ++ String.join ds,
        events := (turnS0 db0 cid req).events ++ ds.map SSEEvent.content_delta }
      r
    rw [hfin]
    dsimp only [turnCtx, turnS0]
    refine ⟨_, (createMessage db0 cid "user" req.content (turnAtts req) none).1,
      (createMessage (createMessage db0 cid "user" req.content (turnAtts req)
        none).2 cid "assistant" ("" ++ String.join ds) []
        (some { input := 0, output := 0 })).1, rfl, ?_, rfl, rfl, ?_⟩
    · rw [updateTyped_messages]
      show (db0.messages ++ [_]) ++ [_] = db0.messages ++ [_, _]
      rw [List.append_assoc]
      rfl
    · have h2 : getConversation (createMessage (createMessage db0 cid "user"
        req.content (turnAtts req) none).2 cid "assistant"
        ("" ++ String.join ds) [] (some { input := 0, output := 0 })).2 cid uid
          = some conversation := hconv
      rw [getConversation_updateTyped _ _ _ _ _ _ h2]
      show some (if (conversation.messageCount == 0) = true then 2
        else conversation.messageCount + 2) = _
      by_cases hmc : conversation.messageCount = 0
      · simp [hmc]
      · simp [hmc]
  · rw [sendMessageStream_found db0 cid uid req fetch
      (StreamResult.err (ds.map SChunk.content_delta) msg) titleApi
      conversation hconv, runStream_err]
    refine ⟨_, (createMessage db0 cid "user" req.content (turnAtts req) none).1,
      rfl, rfl, rfl, ?_⟩
    have h2 : getConversation (createMessage db0 cid "user" req.content
      (turnAtts req) none).2 cid uid = some conversation := hconv
    dsimp only [turnS0]
    rw [h2]
    rfl

/-- A fresh conversation used as a concrete test fixture. -/
def convW : Conversation :=
  { id := "c1", userId := "u1", title := "新对话", systemPrompt := "sp",
    model := "gpt-4o", messageCount := 0, createdAt := 0, updatedAt := 0 }

/-- A database holding only `convW`. -/
def dbW : DBState :=
  { conversations := [convW], messages := [], nextId := 0, now := 0 }

/-- A plain text request fixture. -/
def reqW : ChatRequest := { content := "hello", attachments := none }

/-- A blob-store oracle where every fetch fails. -/
def fetchW : String → Option String := fun _ => none

/-- A title backend that answers with a fixed title. -/
def titleApiW : String → TitleStep :=
  fun _ => TitleStep.api (some (some "标题"))

/-- Concrete instantiation of `C1_messageCount_turn_invariant`: a one-delta
stream on a fresh conversation, and the same stream failing after its delta. -/
theorem C1_witness :
    (∃ res um am,
        sendMessageStream dbW "c1" "u1" reqW fetchW
          (StreamResult.ok [SChunk.content_delta "Hi", SChunk.finish "stop"])
          titleApiW = some res ∧
        res.db.messages = dbW.messages ++ [um, am] ∧
        um.role = "user" ∧ am.role = "assistant" ∧
        (getConversation res.db "c1" "u1").map Conversation.messageCount =
          some (convW.messageCount + 2)) ∧
    (∃ res um,
        sendMessageStream dbW "c1" "u1" reqW fetchW
          (StreamResult.err [SChunk.content_delta "Hi"] "boom") titleApiW =
          some res ∧
        res.db.messages = dbW.messages ++ [um] ∧ um.role = "user" ∧
        (getConversation res.db "c1" "u1").map Conversation.messageCount =
          some convW.messageCount) :=
  C1_messageCount_turn_invariant dbW "c1" "u1" reqW fetchW titleApiW convW
    rfl ["Hi"] "stop" "boom"

/-- C2: In every streaming turn (whatever the stream outcome, including a
failing one), the user's message — original content plus unresolved attachment
references — is persisted before any call to the completion backend: the effect
trace opens with the ownership check, the history read and the user-message
insert, followed only by blob fetches until the completion call; and the user
message is present in the final database in all outcomes. -/
theorem C2_user_persisted_before_completion
    (db0 : DBState) (cid uid : String) (req : ChatRequest)
    (fetch : String → Option String) (stream : StreamResult)
    (titleApi : String → TitleStep) (conversation : Conversation)
    (hconv : getConversation db0 cid uid = some conversation) :
    ∃ res tail um more,
      sendMessageStream db0 cid uid req fetch stream titleApi = some res ∧
      res.effects = [Effect.getConversation, Effect.getMessages,
          Effect.createMessage "user"] ++ fetchEffects (turnAtts req) ++
        ([Effect.completionCall] ++ tail) ∧
      (∀ e ∈ fetchEffects (turnAtts req), ∃ u, e = Effect.blobFetch u) ∧
      um.content = req.content ∧ um.attachments = turnAtts req ∧
      um.role = "user" ∧
      res.db.messages = db0.messages ++ ([um] ++ more) := by
  rw [sendMessageStream_found db0 cid uid req fetch stream titleApi
    conversation hconv]
  obtain ⟨tail, htail⟩ := runStream_effects_extend
    (turnCtx conversation cid uid req fetch titleApi) (turnS0 db0 cid req) stream
  obtain ⟨more, hmore⟩ := runStream_messages_extend
    (turnCtx conversation cid uid req fetch titleApi) (turnS0 db0 cid req) stream
  refine ⟨_, tail,
    (createMessage db0 cid "user" req.content (turnAtts req) none).1, more,
    rfl, ?_, ?_, rfl, rfl, rfl, ?_⟩
  · show (runStream _ _ stream).effects = _
    rw [htail]
    dsimp only [turnS0]
    rw [List.append_assoc, List.append_assoc]
  · intro e he
    unfold fetchEffects at he
    obtain ⟨a, _, rfl⟩ := List.mem_map.mp he
    exact ⟨a.url.getD "", rfl⟩
  · show (runStream _ _ stream).db.messages = _
    rw [hmore]
    show (db0.messages ++ [_]) ++ more = _
    rw [List.append_assoc]
    rfl

/-- Concrete instantiation of `C2_user_persisted_before_completion` on a turn
whose completion stream raises immediately: the user message is still first
persisted (before the completion-call effect) and survives. -/
theorem C2_witness :
    ∃ res tail um more,
      sendMessageStream dbW "c1" "u1" reqW fetchW
        (StreamResult.err [] "connection reset") titleApiW = some res ∧
      res.effects = [Effect.getConversation, Effect.getMessages,
          Effect.createMessage "user"] ++ fetchEffects (turnAtts reqW) ++
        ([Effect.completionCall] ++ tail) ∧
      (∀ e ∈ fetchEffects (turnAtts reqW), ∃ u, e = Effect.blobFetch u) ∧
      um.content = reqW.content ∧ um.attachments = turnAtts reqW ∧
      um.role = "user" ∧
      res.db.messages = dbW.messages ++ ([um] ++ more) :=
  C2_user_persisted_before_completion dbW "c1" "u1" reqW fetchW
    (StreamResult.err [] "connection reset") titleApiW convW rfl

theorem strEmpty_append (s : String) : "" ++ s = s := by
  cases s with
  | mk data =>
      show String.mk ([] ++ data) = String.mk data
      rw [List.nil_append]

/-- The `delta` payload carried by a `content_delta` event, if any. -/
def deltaPayload : SSEEvent → Option String
  | SSEEvent.content_delta d => some d
  | _ => none

theorem filterMap_deltaPayload (ds : List String) :
    (ds.map SSEEvent.content_delta).filterMap deltaPayload = ds := by
  induction ds with
  | nil => rfl
  | cons d rest ih => simp [deltaPayload, ih]

/-- C3: for every streaming turn that completes successfully, the
concatenation, in emission order, of the `delta` payloads of all
`content_delta` events sent to the client equals the `content` field of the
persisted assistant message. -/
theorem C3_delta_concat_eq_persisted_content
    (db0 : DBState) (cid uid : String) (req : ChatRequest)
    (fetch : String → Option String) (titleApi : String → TitleStep)
    (conversation : Conversation)
    (hconv : getConversation db0 cid uid = some conversation)
    (ds : List String) (r : String) :
    ∃ res um am,
      sendMessageStream db0 cid uid req fetch
        (StreamResult.ok (ds.map SChunk.content_delta ++ [SChunk.finish r]))
        titleApi = some res ∧
      res.db.messages = db0.messages ++ [um, am] ∧ am.role = "assistant" ∧
      String.join (res.events.filterMap deltaPayload) = am.content := by
  rw [sendMessageStream_found db0 cid uid req fetch
    (StreamResult.ok (ds.map SChunk.content_delta ++ [SChunk.finish r]))
    titleApi conversation hconv, runStream_ok]
  obtain ⟨t, effs2, hfin⟩ := processChunk_finish
    (turnCtx conversation cid uid req fetch titleApi)
    { turnS0 db0 cid req with
      full_content := (turnS0 db0 cid req).full_content ++ String.join ds,
      events := (turnS0 db0 cid req).events ++ ds.map SSEEvent.content_delta }
    r
  rw [hfin]
  dsimp only [turnCtx, turnS0]
  refine ⟨_, (createMessage db0 cid "user" req.content (turnAtts req) none).1,
    (createMessage (createMessage db0 cid "user" req.content (turnAtts req)
      none).2 cid "assistant" ("" ++ String.join ds) []
      (some { input := 0, output := 0 })).1, rfl, ?_, rfl, ?_⟩
  · rw [updateTyped_messages]
    show (db0.messages ++ [_]) ++ [_] = db0.messages ++ [_, _]
    rw [List.append_assoc]
    rfl
  · show String.join ((([SSEEvent.message_start db0.nextId] ++
      ds.map SSEEvent.content_delta) ++ [SSEEvent.message_end _ _ t]).filterMap
        deltaPayload) = "" ++ String.join ds
    rw [List.filterMap_append, List.filterMap_append, filterMap_deltaPayload,
      strEmpty_append]
    show String.join (([] : List String) ++ (ds ++ [])) = String.join ds
    rw [List.nil_append, List.append_nil]

/-- Concrete instantiation of `C3_delta_concat_eq_persisted_content` on a
two-delta stream. -/
theorem C3_witness :
    ∃ res um am,
      sendMessageStream dbW "c1" "u1" reqW fetchW
        (StreamResult.ok [SChunk.content_delta "He", SChunk.content_delta "y",
          SChunk.finish "stop"]) titleApiW = some res ∧
      res.db.messages = dbW.messages ++ [um, am] ∧ am.role = "assistant" ∧
      String.join (res.events.filterMap deltaPayload) = am.content :=
  C3_delta_concat_eq_persisted_content dbW "c1" "u1" reqW fetchW titleApiW
    convW rfl ["He", "y"] "stop"

/-- C6: the SSE stream of a turn is exactly one `message_start`, then the
`content_delta` events in the order produced by the backend, then exactly one
terminal event — `message_end` on a successful stream, `error` when the
adapter raises mid-stream — with nothing after the terminal event. -/
theorem C6_event_stream_shape
    (db0 : DBState) (cid uid : String) (req : ChatRequest)
    (fetch : String → Option String) (titleApi : String → TitleStep)
    (conversation : Conversation)
    (hconv : getConversation db0 cid uid = some conversation)
    (ds : List String) (r msg : String) :
    (∃ res mid tok topt,
        sendMessageStream db0 cid uid req fetch
          (StreamResult.ok (ds.map SChunk.content_delta ++ [SChunk.finish r]))
          titleApi = some res ∧
        res.events = SSEEvent.message_start db0.nextId ::
          (ds.map SSEEvent.content_delta ++
            [SSEEvent.message_end mid tok topt])) ∧
    (∃ res,
        sendMessageStream db0 cid uid req fetch
          (StreamResult.err (ds.map SChunk.content_delta) msg) titleApi =
          some res ∧
        res.events = SSEEvent.message_start db0.nextId ::
          (ds.map SSEEvent.content_delta ++ [SSEEvent.error msg])) := by
  constructor
  · rw [sendMessageStream_found db0 cid uid req fetch
      (StreamResult.ok (ds.map SChunk.content_delta ++ [SChunk.finish r]))
      titleApi conversation hconv, runStream_ok]
    obtain ⟨t, effs2, hfin⟩ := processChunk_finish
      (turnCtx conversation cid uid req fetch titleApi)
      { turnS0 db0 cid req with
        full_content := (turnS0 db0 cid req).full_content ++ String.join ds,
        events := (turnS0 db0 cid req).events ++ ds.map SSEEvent.content_delta }
      r
    rw [hfin]
    dsimp only [turnCtx, turnS0]
    refine ⟨_, (createMessage db0 cid "user" req.content (turnAtts req)
      none).2.nextId, { input := 0, output := 0 }, t, rfl, ?_⟩
    show ([SSEEvent.message_start db0.nextId] ++ ds.map SSEEvent.content_delta)
      ++ [SSEEvent.message_end _ _ t] = _
    rw [List.append_assoc]
    rfl
  · rw [sendMessageStream_found db0 cid uid req fetch
      (StreamResult.err (ds.map SChunk.content_delta) msg) titleApi
      conversation hconv, runStream_err]
    refine ⟨_, rfl, ?_⟩
    dsimp only [turnS0]
    rw [List.append_assoc]
    rfl

/-- Concrete instantiation of `C6_event_stream_shape`: the same delta prefix
closed by a `finish` and by a mid-stream failure. -/
theorem C6_witness :
    (∃ res mid tok topt,
        sendMessageStream dbW "c1" "u1" reqW fetchW
          (StreamResult.ok [SChunk.content_delta "Hi", SChunk.finish "stop"])
          titleApiW = some res ∧
        res.events = SSEEvent.message_start dbW.nextId ::
          ([SSEEvent.content_delta "Hi"] ++
            [SSEEvent.message_end mid tok topt])) ∧
    (∃ res,
        sendMessageStream dbW "c1" "u1" reqW fetchW
          (StreamResult.err [SChunk.content_delta "Hi"] "boom") titleApiW =
          some res ∧
        res.events = SSEEvent.message_start dbW.nextId ::
          ([SSEEvent.content_delta "Hi"] ++ [SSEEvent.error "boom"])) :=
  C6_event_stream_shape dbW "c1" "u1" reqW fetchW titleApiW convW rfl
    ["Hi"] "stop" "boom"

/-- A raw backend stream for a turn whose final chunk reports a non-zero
usage record (input 5 / output 7), as the streaming API can. -/
def rawsC4 : List RawChunk :=
  [{ choices := [{ content := some "Hello", finish_reason := none }],
     usage := none },
   { choices := [{ content := none, finish_reason := some "stop" }],
     usage := some { input := 5, output := 7 } }]

/-- C4 (bug evidence): the adapter turns `rawsC4` into a delta plus a finish
but forwards no usage information at all (erasing the usage fields changes
nothing), and the turn driven by that stream persists the assistant message
with the never-updated `{"input": 0, "output": 0}` counters and emits the same
zero counters in `message_end` — not the backend-reported 5/7. -/
theorem C4_usage_counters_not_persisted :
    chatCompletionStreamEvents rawsC4 =
      [SChunk.content_delta "Hello", SChunk.finish "stop"] ∧
    chatCompletionStreamEvents (rawsC4.map
      (fun c => { c with usage := none })) = chatCompletionStreamEvents rawsC4 ∧
    (rawsC4.map RawChunk.usage).getLast? =
      some (some { input := 5, output := 7 }) ∧
    ∃ res um am topt,
      sendMessageStream dbW "c1" "u1" reqW fetchW
        (StreamResult.ok (chatCompletionStreamEvents rawsC4)) titleApiW =
        some res ∧
      res.db.messages = dbW.messages ++ [um, am] ∧
      am.role = "assistant" ∧
      am.tokens = some { input := 0, output := 0 } ∧
      am.tokens ≠ some { input := 5, output := 7 } ∧
      res.events.getLast? =
        some (SSEEvent.message_end am.id { input := 0, output := 0 } topt) := by
  refine ⟨rfl, rfl, rfl, ?_⟩
  rw [sendMessageStream_found dbW "c1" "u1" reqW fetchW
    (StreamResult.ok (chatCompletionStreamEvents rawsC4)) titleApiW convW rfl]
  refine ⟨_,
    { id := 0, conversationId := "c1", role := "user", content := "hello",
      attachments := [], tokens := none, createdAt := 0 },
    { id := 1, conversationId := "c1", role := "assistant", content := "Hello",
      attachments := [], tokens := some { input := 0, output := 0 },
      createdAt := 1 },
    some "标题", rfl, rfl, rfl, rfl, by decide, rfl⟩

/-- 21 messages in one conversation, with increasing timestamps. -/
def msgsC5 : List StoredMessage :=
  (List.range 21).map (fun i =>
    { id := i, conversationId := "c1", role := "user", content := "m",
      attachments := [], tokens := none, createdAt := i })

/-- A database whose only conversation has 21 messages. -/
def dbC5 : DBState :=
  { conversations := [convW], messages := msgsC5, nextId := 21, now := 21 }

/-- C5 (bug evidence): on a conversation with 21 stored messages, the history
query used by the turn (`get_messages_by_conversation` with limit 20 and no
`before_id`) returns the twenty OLDEST messages (ids 0..19, `ORDER BY
createdAt ASC LIMIT 20`), not the twenty most-recent ones (ids 1..20) that
its own docstring ("获取最新消息") and the specification describe. -/
theorem C5_history_window_oldest_not_most_recent :
    (get_messages_by_conversation dbC5 "c1" 20 none).map StoredMessage.id =
      List.range 20 ∧
    (specMostRecentAscending dbC5 "c1" 20).map StoredMessage.id =
      (List.range 20).map (fun i => i + 1) ∧
    get_messages_by_conversation dbC5 "c1" 20 none ≠
      specMostRecentAscending dbC5 "c1" 20 := by
  refine ⟨by decide, by decide, by decide⟩

theorem processChunk_finish_api (ctx : GenCtx) (s : GenState) (r : String)
    (o : Option (Option String)) (hmc : ctx.conversation.messageCount = 0)
    (hstep : ctx.titleApi (titleContent ctx.reqContent ctx.imgs ctx.txts) =
      TitleStep.api o) :
    processChunk ctx s (SChunk.finish r) =
      { full_content := s.full_content,
        events := s.events ++ [SSEEvent.message_end s.db.nextId
          { input := 0, output := 0 }
          (some (generate_conversation_title o 20))],
        db := updateConversationTyped
          (createMessage s.db ctx.cid "assistant" s.full_content []
            (some { input := 0, output := 0 })).2 ctx.cid ctx.uid 2
          (some (generate_conversation_title o 20)),
        effects := s.effects ++ [Effect.createMessage "assistant"] ++
          [Effect.titleCall, Effect.updateConversation],
        message_id := some s.db.nextId } := by
  have hb : (ctx.conversation.messageCount == 0) = true := by simp [hmc]
  have ht := generate_title_ne_empty o
  simp only [processChunk, hb, hstep, if_true]
  simp only [ht, ne_eq, not_false_eq_true, bne_iff_ne, if_true, if_pos]
  rfl

theorem processChunk_finish_raised (ctx : GenCtx) (s : GenState) (r : String)
    (hmc : ctx.conversation.messageCount = 0)
    (hstep : ctx.titleApi (titleContent ctx.reqContent ctx.imgs ctx.txts) =
      TitleStep.raised) :
    processChunk ctx s (SChunk.finish r) =
      { full_content := s.full_content,
        events := s.events ++ [SSEEvent.message_end s.db.nextId
          { input := 0, output := 0 } none],
        db := updateConversationTyped
          (createMessage s.db ctx.cid "assistant" s.full_content []
            (some { input := 0, output := 0 })).2 ctx.cid ctx.uid 2 none,
        effects := s.effects ++ [Effect.createMessage "assistant"] ++
          [Effect.titleCall, Effect.updateConversation],
        message_id := some s.db.nextId } := by
  have hb : (ctx.conversation.messageCount == 0) = true := by simp [hmc]
  simp only [processChunk, hb, hstep, if_true]
  rfl

/-- A conversation created with a custom title and no messages yet. -/
def convC7 : Conversation :=
  { id := "c2", userId := "u1", title := "旅行计划", systemPrompt := "sp",
    model := "gpt-4o", messageCount := 0, createdAt := 0, updatedAt := 0 }

/-- A database holding only `convC7`. -/
def dbC7 : DBState :=
  { conversations := [convC7], messages := [], nextId := 0, now := 0 }

/-- A title backend whose completion call fails (raises inside
`generate_conversation_title`, which catches it). -/
def titleFailApi : String → TitleStep := fun _ => TitleStep.api none

/-- C7 counterexample: first turn on a conversation titled "旅行计划"
completes successfully but the title-generation call fails; the conversation's
title is then NOT left unchanged — it is overwritten with the generator's
fixed default "新对话" (while `messageCount` does advance to 2). -/
theorem C7_counterexample_title_overwritten :
    (getConversation dbC7 "c2" "u1").map Conversation.title = some "旅行计划" ∧
    ∃ res,
      sendMessageStream dbC7 "c2" "u1" reqW fetchW
        (StreamResult.ok [SChunk.content_delta "ok", SChunk.finish "stop"])
        titleFailApi = some res ∧
      (getConversation res.db "c2" "u1").map Conversation.title =
        some "新对话" ∧
      some "新对话" ≠ some "旅行计划" ∧
      (getConversation res.db "c2" "u1").map Conversation.messageCount =
        some 2 := by
  refine ⟨rfl, ?_⟩
  rw [sendMessageStream_found dbC7 "c2" "u1" reqW fetchW
    (StreamResult.ok [SChunk.content_delta "ok", SChunk.finish "stop"])
    titleFailApi convC7 rfl]
  exact ⟨_, rfl, rfl, by decide, rfl⟩

/-- C7 amended: on a successful first turn, the conversation's title becomes
whatever `generate_conversation_title` returned — the fixed default "新对话"
when its completion call failed — and is left unchanged only when the title
step raises into the orchestrator's `except` handler; `messageCount` advances
to 2 in every case. -/
theorem C7_title_failure_amended
    (db0 : DBState) (cid uid : String) (req : ChatRequest)
    (fetch : String → Option String) (titleApi : String → TitleStep)
    (conversation : Conversation)
    (hconv : getConversation db0 cid uid = some conversation)
    (hfirst : conversation.messageCount = 0)
    (ds : List String) (r : String) :
    ∃ res,
      sendMessageStream db0 cid uid req fetch
        (StreamResult.ok (ds.map SChunk.content_delta ++ [SChunk.finish r]))
        titleApi = some res ∧
      (getConversation res.db cid uid).map Conversation.messageCount =
        some 2 ∧
      (getConversation res.db cid uid).map Conversation.title =
        some (match titleApi (titleContent req.content (turnImgs fetch req)
            (turnTxts fetch req)) with
          | TitleStep.api o => generate_conversation_title o 20
          | TitleStep.raised => conversation.title) := by
  rw [sendMessageStream_found db0 cid uid req fetch
    (StreamResult.ok (ds.map SChunk.content_delta ++ [SChunk.finish r]))
    titleApi conversation hconv, runStream_ok]
  have h2 : getConversation (createMessage (createMessage db0 cid "user"
    req.content (turnAtts req) none).2 cid "assistant"
    ("" ++ String.join ds) []
    (some { input := 0, output := 0 })).2 cid uid = some conversation := hconv
  cases hstep : titleApi (titleContent req.content (turnImgs fetch req)
    (turnTxts fetch req)) with
  | api o =>
      have hstep' : (turnCtx conversation cid uid req fetch titleApi).titleApi
          (titleContent (turnCtx conversation cid uid req fetch titleApi).reqContent
            (turnCtx conversation cid uid req fetch titleApi).imgs
            (turnCtx conversation cid uid req fetch titleApi).txts) =
          TitleStep.api o := hstep
      rw [processChunk_finish_api _ _ r o hfirst hstep']
      dsimp only [turnCtx, turnS0]
      refine ⟨_, rfl, ?_, ?_⟩
      · rw [getConversation_updateTyped _ _ _ _ _ _ h2]
        rfl
      · rw [getConversation_updateTyped _ _ _ _ _ _ h2]
        rfl
  | raised =>
      have hstep' : (turnCtx conversation cid uid req fetch titleApi).titleApi
          (titleContent (turnCtx conversation cid uid req fetch titleApi).reqContent
            (turnCtx conversation cid uid req fetch titleApi).imgs
            (turnCtx conversation cid uid req fetch titleApi).txts) =
          TitleStep.raised := hstep
      rw [processChunk_finish_raised _ _ r hfirst hstep']
      dsimp only [turnCtx, turnS0]
      refine ⟨_, rfl, ?_, ?_⟩
      · rw [getConversation_updateTyped _ _ _ _ _ _ h2]
        rfl
      · rw [getConversation_updateTyped _ _ _ _ _ _ h2]
        rfl

/-- Concrete instantiation of `C7_title_failure_amended` with a failing title
backend: the title is set to the fixed default, and the count advances. -/
theorem C7_witness :
    ∃ res,
      sendMessageStream dbC7 "c2" "u1" reqW fetchW
        (StreamResult.ok [SChunk.content_delta "ok", SChunk.finish "stop"])
        titleFailApi = some res ∧
      (getConversation res.db "c2" "u1").map Conversation.messageCount =
        some 2 ∧
      (getConversation res.db "c2" "u1").map Conversation.title =
        some "新对话" :=
  C7_title_failure_amended dbC7 "c2" "u1" reqW fetchW titleFailApi convC7
    rfl rfl ["ok"] "stop"

/-! ## Spec-side statement of the context-assembly algorithm (C8) -/

/-- The final user entry's text as the specification words the algorithm:
(i) empty content with at least one image present is replaced by the fixed
default image-analysis instruction; (ii) when text attachments are present,
their delimited blocks (filename header plus fenced body, in attachment-list
order) are appended, prefixed by the fixed analyze-file instruction when the
content at that point is empty. -/
def specFinalUserText (content : String) (hasImages : Bool)
    (txts : List TextFileContent) : String :=
  let base := if pyStrip content == "" && hasImages then defaultImagePrompt
    else content
  if txts = [] then base
  else if base = "" then analyzeFileInstr ++ fileContext txts
  else base ++ fileContext txts

/-- The final user entry as the specification words it: a multi-part
structure of one text part followed by one image part per image reference
with detail "auto" when images are present, a plain text entry otherwise. -/
def specFinalUserEntry (content : String) (imgs : List ImageRef)
    (txts : List TextFileContent) : ApiMessage :=
  if imgs = [] then
    { role := "user", content := MsgContent.str (specFinalUserText content false txts) }
  else
    { role := "user",
      content := MsgContent.parts (ContentPart.text
        (specFinalUserText content true txts) ::
        imgs.map (fun i => ContentPart.image_url i.url "auto")) }

/-- The assembled context as the specification words it: a system entry
holding the system prompt, the history entries in original order, then the
final user entry. -/
def specAssembledContext (systemPrompt : String) (history : List HistMsg)
    (content : String) (imgs : List ImageRef) (txts : List TextFileContent) :
    List ApiMessage :=
  { role := "system", content := MsgContent.str systemPrompt } ::
    (history.map (fun m => { role := m.role, content := MsgContent.str m.content }) ++
      [specFinalUserEntry content imgs txts])

theorem ite_bne_comm {α : Type} (b : String) (X Y : α) :
    (if b != "" then X else Y) = if b = "" then Y else X := by
  by_cases h : b = "" <;> simp [h]

theorem enhanced_eq_spec (content : String) (imgs : List ImageRef)
    (txts : List TextFileContent) :
    enhancedMessage content imgs txts =
      specFinalUserText content (imgs != []) txts := by
  cases txts with
  | nil => rfl
  | cons f fs => exact ite_bne_comm _ _ _

theorem buildMessages_none (sp : String) (hist : List HistMsg) (um : String) :
    buildMessages sp hist um none =
      ({ role := "system", content := MsgContent.str sp } ::
        hist.map (fun m => { role := m.role, content := MsgContent.str m.content })) ++
      [{ role := "user", content := MsgContent.str um }] := rfl

theorem buildMessages_imgs (sp : String) (hist : List HistMsg) (um : String)
    (imgs : List ImageRef) (h : imgs ≠ []) :
    buildMessages sp hist um (some imgs) =
      ({ role := "system", content := MsgContent.str sp } ::
        hist.map (fun m => { role := m.role, content := MsgContent.str m.content })) ++
      [{ role := "user", content := MsgContent.parts (ContentPart.text um ::
        imgs.filterMap (fun a =>
          if a.type == "image" then some (ContentPart.image_url a.url "auto")
          else none)) }] := by
  unfold buildMessages
  have hb : (imgs != []) = true := by simp [h]
  simp only [Option.getD_some, hb, if_true]

theorem filterMap_image_parts (l : List ImageRef)
    (h : ∀ i ∈ l, i.type = "image") :
    l.filterMap (fun a =>
      if a.type == "image" then some (ContentPart.image_url a.url "auto")
      else none) = l.map (fun i => ContentPart.image_url i.url "auto") := by
  induction l with
  | nil => rfl
  | cons a rest ih =>
      have ha : a.type = "image" := h a (List.mem_cons_self a rest)
      have hb : (a.type == "image") = true := by simp [ha]
      simp only [List.filterMap_cons, List.map_cons, hb, if_true]
      rw [ih (fun i hi => h i (List.mem_cons_of_mem a hi))]

theorem resolveStep_fst (fetch : String → Option String) (att : AttachmentRef)
    (r : List ImageRef × List TextFileContent) :
    (resolveStep fetch att r).1 =
      if att.type == "image" && strTruthy att.url then
        { type := "image", url := att.url.getD "" } :: r.1
      else r.1 := by
  unfold resolveStep
  by_cases h1 : (att.type == "image" && strTruthy att.url) = true
  · rw [if_pos h1, if_pos h1]
  · rw [if_neg h1, if_neg h1]
    by_cases h2 : (att.type == "file" && strTruthy att.url) = true
    · rw [if_pos h2]
      by_cases h3 : isTextFile att = true
      · rw [if_pos h3]
        cases fetch (att.url.getD "") with
        | none => rfl
        | some c =>
            dsimp only
            by_cases h4 : (c != "") = true
            · rw [if_pos h4]
            · rw [if_neg h4]
      · rw [if_neg h3]
    · rw [if_neg h2]

theorem resolveAttachments_imgs_type (fetch : String → Option String) :
    ∀ (atts : List AttachmentRef),
      ∀ i ∈ (resolveAttachments fetch atts).1, i.type = "image" := by
  intro atts
  induction atts with
  | nil => intro i hi; cases hi
  | cons a rest ih =>
      intro i hi
      rw [show resolveAttachments fetch (a :: rest) =
        resolveStep fetch a (resolveAttachments fetch rest) from rfl,
        resolveStep_fst] at hi
      by_cases h1 : (a.type == "image" && strTruthy a.url) = true
      · rw [if_pos h1] at hi
        cases hi with
        | head => rfl
        | tail _ h => exact ih i h
      · rw [if_neg h1] at hi
        exact ih i hi

theorem turnApiMessages_eq_spec (conversation : Conversation) (db0 : DBState)
    (cid : String) (req : ChatRequest) (fetch : String → Option String) :
    turnApiMessages conversation db0 cid req fetch =
      specAssembledContext conversation.systemPrompt
        (historyForApi (get_messages_by_conversation db0 cid 20 none))
        req.content (turnImgs fetch req) (turnTxts fetch req) := by
  unfold turnApiMessages specAssembledContext specFinalUserEntry
  by_cases himg : turnImgs fetch req = []
  · rw [himg, show (if (([] : List ImageRef) != []) = true
      then some ([] : List ImageRef) else none) = none from rfl,
      buildMessages_none, enhanced_eq_spec, List.cons_append]
    rfl
  · have himg' : (turnImgs fetch req != []) = true := by simp [himg]
    rw [if_pos himg', buildMessages_imgs _ _ _ _ himg,
      filterMap_image_parts (turnImgs fetch req)
        (resolveAttachments_imgs_type fetch (turnAtts req)),
      enhanced_eq_spec, himg', List.cons_append, if_neg himg]

/-- C8: for every validated turn (any stream outcome), the context handed to
the completion backend equals the spec-side assembly: system entry, history
entries in original order, then the final user entry built by substitution of
the default image instruction, appended text-attachment blocks with the
analyze-file instruction when the content is empty, and a text-then-images
multi-part structure with detail "auto" when images are present.  Determinism
holds because the assembly is a pure function of its inputs. -/
theorem C8_context_assembly
    (db0 : DBState) (cid uid : String) (req : ChatRequest)
    (fetch : String → Option String) (stream : StreamResult)
    (titleApi : String → TitleStep) (conversation : Conversation)
    (hconv : getConversation db0 cid uid = some conversation) :
    ∃ res,
      sendMessageStream db0 cid uid req fetch stream titleApi = some res ∧
      res.apiMessages =
        specAssembledContext conversation.systemPrompt
          (historyForApi (get_messages_by_conversation db0 cid 20 none))
          req.content (turnImgs fetch req) (turnTxts fetch req) := by
  rw [sendMessageStream_found db0 cid uid req fetch stream titleApi
    conversation hconv]
  exact ⟨_, rfl, turnApiMessages_eq_spec conversation db0 cid req fetch⟩

/-- An image attachment fixture. -/
def attImg : AttachmentRef :=
  { id := "a1", type := "image", url := some "https://img/1.png",
    fileName := none, mimeType := none }

/-- A text-file attachment fixture. -/
def attTxt : AttachmentRef :=
  { id := "a2", type := "file", url := some "files/notes.txt",
    fileName := some "notes.txt", mimeType := some "text/plain" }

/-- A request carrying an image and a text file with empty content. -/
def reqC8 : ChatRequest :=
  { content := "", attachments := some [attImg, attTxt] }

/-- A blob store that serves the text-file fixture. -/
def fetchC8 : String → Option String :=
  fun u => if u == "files/notes.txt" then some "DATA" else none

/-- Concrete instantiation of `C8_context_assembly` on a turn with an image
and a text attachment and empty content. -/
theorem C8_witness :
    ∃ res,
      sendMessageStream dbW "c1" "u1" reqC8 fetchC8
        (StreamResult.ok [SChunk.content_delta "Hi", SChunk.finish "stop"])
        titleApiW = some res ∧
      res.apiMessages =
        specAssembledContext convW.systemPrompt
          (historyForApi (get_messages_by_conversation dbW "c1" 20 none))
          reqC8.content (turnImgs fetchC8 reqC8) (turnTxts fetchC8 reqC8) :=
  C8_context_assembly dbW "c1" "u1" reqC8 fetchC8
    (StreamResult.ok [SChunk.content_delta "Hi", SChunk.finish "stop"])
    titleApiW convW rfl

/-! ## Congruence machinery for C9: two generator runs that differ only in
already-persisted message payloads produce the same events. -/

/-- Database states that agree on everything the generator's event output can
observe (counters and the conversations container). -/
def DBRelLite (d d' : DBState) : Prop :=
  d.nextId = d'.nextId ∧ d.now = d'.now ∧ d.conversations = d'.conversations

/-- Generator states that agree on everything observable in the emitted
events. -/
def GenRelLite (s s' : GenState) : Prop :=
  s.full_content = s'.full_content ∧ s.events = s'.events ∧
  s.message_id = s'.message_id ∧ DBRelLite s.db s'.db

/-- The title recorded at `finish` (the generated title on a first turn whose
title step completed, nothing otherwise). -/
def finishTitle (ctx : GenCtx) : Option String :=
  if ctx.conversation.messageCount == 0 then
    match ctx.titleApi (titleContent ctx.reqContent ctx.imgs ctx.txts) with
    | TitleStep.api o => some (generate_conversation_title o 20)
    | TitleStep.raised => none
  else none

/-- The message count written at `finish`. -/
def finishCount (ctx : GenCtx) : Nat :=
  if ctx.conversation.messageCount == 0 then 2
  else ctx.conversation.messageCount + 2

/-- The effects appended after the assistant insert at `finish`. -/
def finishEffects (ctx : GenCtx) : List Effect :=
  if ctx.conversation.messageCount == 0 then
    [Effect.titleCall, Effect.updateConversation]
  else [Effect.updateConversation]

theorem processChunk_finish_eq (ctx : GenCtx) (s : GenState) (r : String) :
    processChunk ctx s (SChunk.finish r) =
      { full_content := s.full_content,
        events := s.events ++ [SSEEvent.message_end s.db.nextId
          { input := 0, output := 0 } (finishTitle ctx)],
        db := updateConversationTyped
          (createMessage s.db ctx.cid "assistant" s.full_content []
            (some { input := 0, output := 0 })).2 ctx.cid ctx.uid
          (finishCount ctx) (finishTitle ctx),
        effects := s.effects ++ [Effect.createMessage "assistant"] ++
          finishEffects ctx,
        message_id := some s.db.nextId } := by
  unfold finishTitle finishCount finishEffects
  by_cases hmc : ctx.conversation.messageCount = 0
  · have hb : (ctx.conversation.messageCount == 0) = true := by simp [hmc]
    cases hstep : ctx.titleApi (titleContent ctx.reqContent ctx.imgs ctx.txts) with
    | api o =>
        have ht := generate_title_ne_empty o
        simp only [processChunk, hb, hstep, if_true]
        simp only [ht, ne_eq, not_false_eq_true, bne_iff_ne, if_true, if_pos]
        rfl
    | raised =>
        simp only [processChunk, hb, hstep, if_true]
        rfl
  · have hb : (ctx.conversation.messageCount == 0) = false := by simp [hmc]
    simp only [processChunk, hb, Bool.false_eq_true, if_false]
    rfl

theorem getConversation_createMessage (db : DBState)
    (cid2 role content : String) (atts : List AttachmentRef)
    (tok : Option Tokens) (cid uid : String) :
    getConversation (createMessage db cid2 role content atts tok).2 cid uid =
      getConversation db cid uid := rfl

theorem updateTyped_rel (d d' : DBState) (h : DBRelLite d d')
    (cid uid : String) (n : Nat) (t : Option String) :
    DBRelLite (updateConversationTyped d cid uid n t)
      (updateConversationTyped d' cid uid n t) := by
  obtain ⟨hn, hw, hc⟩ := h
  unfold updateConversationTyped getConversation
  rw [hc]
  cases List.find? (fun c => c.id == cid && c.userId == uid) d'.conversations with
  | none => exact ⟨hn, hw, hc⟩
  | some c => exact ⟨hn, by dsimp only; rw [hw], by dsimp only; rw [hw]⟩

theorem processChunk_rel (ctx : GenCtx) (s s' : GenState)
    (h : GenRelLite s s') (c : SChunk) :
    GenRelLite (processChunk ctx s c) (processChunk ctx s' c) := by
  obtain ⟨h1, h2, h3, h4, h5, h6⟩ := h
  cases c with
  | content_delta d =>
      exact ⟨by show s.full_content ++ d = s'.full_content ++ d; rw [h1],
             by show s.events ++ _ = s'.events ++ _; rw [h2], h3, h4, h5, h6⟩
  | finish r =>
      rw [processChunk_finish_eq ctx s r, processChunk_finish_eq ctx s' r]
      have hrel : DBRelLite
          (createMessage s.db ctx.cid "assistant" s.full_content []
            (some { input := 0, output := 0 })).2
          (createMessage s'.db ctx.cid "assistant" s'.full_content []
            (some { input := 0, output := 0 })).2 := by
        refine ⟨?_, ?_, ?_⟩
        · show s.db.nextId + 1 = s'.db.nextId + 1
          rw [h4]
        · show s.db.now + 1 = s'.db.now + 1
          rw [h5]
        · exact h6
      have hupd := updateTyped_rel _ _ hrel ctx.cid ctx.uid (finishCount ctx)
        (finishTitle ctx)
      refine ⟨h1, ?_, by rw [h4], hupd⟩
      show s.events ++ [SSEEvent.message_end s.db.nextId _ _] = _
      rw [h2, h4]

theorem foldl_rel (ctx : GenCtx) (chunks : List SChunk) :
    ∀ s s', GenRelLite s s' →
      GenRelLite (chunks.foldl (processChunk ctx) s)
        (chunks.foldl (processChunk ctx) s') := by
  induction chunks with
  | nil => intro s s' h; exact h
  | cons c cs ih =>
      intro s s' h
      exact ih _ _ (processChunk_rel ctx s s' h c)

theorem runStream_rel_events (ctx : GenCtx) (s s' : GenState)
    (h : GenRelLite s s') (stream : StreamResult) :
    (runStream ctx s stream).events = (runStream ctx s' stream).events := by
  cases stream with
  | ok evs => exact (foldl_rel ctx evs s s' h).2.1
  | err evs msg =>
      show (evs.foldl (processChunk ctx) s).events ++ _ =
        (evs.foldl (processChunk ctx) s').events ++ _
      rw [(foldl_rel ctx evs s s' h).2.1]

theorem resolveStep_skip (fetch : String → Option String) (a : AttachmentRef)
    (r : List ImageRef × List TextFileContent) (ha : a.type = "file")
    (haurl : strTruthy a.url = true) (htext : isTextFile a = true)
    (hfail : fetch (a.url.getD "") = none) :
    resolveStep fetch a r = r := by
  have e1 : (("file" : String) == "image") = false := by decide
  have e2 : (("file" : String) == "file") = true := by decide
  simp only [resolveStep, ha, haurl, htext, hfail, e1, e2, Bool.false_and,
    Bool.and_self, Bool.false_eq_true, if_false, if_true]

theorem resolveAttachments_skip (fetch : String → Option String)
    (pre post : List AttachmentRef) (a : AttachmentRef) (ha : a.type = "file")
    (haurl : strTruthy a.url = true) (htext : isTextFile a = true)
    (hfail : fetch (a.url.getD "") = none) :
    resolveAttachments fetch (pre ++ a :: post) =
      resolveAttachments fetch (pre ++ post) := by
  induction pre with
  | nil =>
      show resolveStep fetch a (resolveAttachments fetch post) =
        resolveAttachments fetch post
      exact resolveStep_skip fetch a _ ha haurl htext hfail
  | cons b pre' ih =>
      show resolveStep fetch b (resolveAttachments fetch (pre' ++ a :: post)) =
        resolveStep fetch b (resolveAttachments fetch (pre' ++ post))
      rw [ih]

/-- C9: an attachment classified as a text file whose fetch fails (the
storage collaborator returns `None` instead of raising) contributes no
content block to the resolved attachments, and the turn proceeds exactly as
if the attachment were absent: same assembled context, same event stream (in
particular no error caused by the attachment). -/
theorem C9_failed_fetch_contributes_nothing
    (db0 : DBState) (cid uid content : String)
    (pre post : List AttachmentRef) (a : AttachmentRef)
    (fetch : String → Option String) (stream : StreamResult)
    (titleApi : String → TitleStep) (conversation : Conversation)
    (hconv : getConversation db0 cid uid = some conversation)
    (ha : a.type = "file") (haurl : strTruthy a.url = true)
    (htext : isTextFile a = true) (hfail : fetch (a.url.getD "") = none) :
    resolveAttachments fetch (pre ++ a :: post) =
      resolveAttachments fetch (pre ++ post) ∧
    ∃ res res',
      sendMessageStream db0 cid uid
        { content := content, attachments := some (pre ++ a :: post) } fetch
        stream titleApi = some res ∧
      sendMessageStream db0 cid uid
        { content := content, attachments := some (pre ++ post) } fetch
        stream titleApi = some res' ∧
      res.events = res'.events ∧ res.apiMessages = res'.apiMessages := by
  have hres := resolveAttachments_skip fetch pre post a ha haurl htext hfail
  refine ⟨hres, ?_⟩
  have h1 : turnImgs fetch
      { content := content, attachments := some (pre ++ a :: post) } =
      turnImgs fetch { content := content, attachments := some (pre ++ post) } := by
    show (resolveAttachments fetch (pre ++ a :: post)).1 =
      (resolveAttachments fetch (pre ++ post)).1
    rw [hres]
  have h2 : turnTxts fetch
      { content := content, attachments := some (pre ++ a :: post) } =
      turnTxts fetch { content := content, attachments := some (pre ++ post) } := by
    show (resolveAttachments fetch (pre ++ a :: post)).2 =
      (resolveAttachments fetch (pre ++ post)).2
    rw [hres]
  have hctx : turnCtx conversation cid uid
      { content := content, attachments := some (pre ++ a :: post) } fetch
      titleApi =
      turnCtx conversation cid uid
        { content := content, attachments := some (pre ++ post) } fetch
        titleApi := by
    unfold turnCtx
    rw [h1, h2]
  have hs0 : GenRelLite
      (turnS0 db0 cid { content := content, attachments := some (pre ++ a :: post) })
      (turnS0 db0 cid { content := content, attachments := some (pre ++ post) }) :=
    ⟨rfl, rfl, rfl, rfl, rfl, rfl⟩
  rw [sendMessageStream_found db0 cid uid
      { content := content, attachments := some (pre ++ a :: post) } fetch
      stream titleApi conversation hconv,
    sendMessageStream_found db0 cid uid
      { content := content, attachments := some (pre ++ post) } fetch
      stream titleApi conversation hconv]
  refine ⟨_, _, rfl, rfl, ?_, ?_⟩
  · show (runStream _ _ stream).events = (runStream _ _ stream).events
    rw [hctx]
    exact runStream_rel_events _ _ _ hs0 stream
  · show turnApiMessages conversation db0 cid
      { content := content, attachments := some (pre ++ a :: post) } fetch =
      turnApiMessages conversation db0 cid
        { content := content, attachments := some (pre ++ post) } fetch
    unfold turnApiMessages
    rw [h1, h2]

/-- A text-file attachment whose blob is unavailable. -/
def attTxtFail : AttachmentRef :=
  { id := "a3", type := "file", url := some "files/gone.txt",
    fileName := some "gone.txt", mimeType := some "text/plain" }

/-- Concrete instantiation of `C9_failed_fetch_contributes_nothing`: the
blob store returns `none` for the text attachment; the turn's events and
context equal those of the turn without the attachment. -/
theorem C9_witness :
    resolveAttachments fetchW ([attImg] ++ attTxtFail :: []) =
      resolveAttachments fetchW ([attImg] ++ []) ∧
    ∃ res res',
      sendMessageStream dbW "c1" "u1"
        { content := "look", attachments := some ([attImg] ++ attTxtFail :: []) }
        fetchW (StreamResult.ok [SChunk.content_delta "Hi", SChunk.finish "stop"])
        titleApiW = some res ∧
      sendMessageStream dbW "c1" "u1"
        { content := "look", attachments := some ([attImg] ++ []) } fetchW
        (StreamResult.ok [SChunk.content_delta "Hi", SChunk.finish "stop"])
        titleApiW = some res' ∧
      res.events = res'.events ∧ res.apiMessages = res'.apiMessages :=
  C9_failed_fetch_contributes_nothing dbW "c1" "u1" "look" [attImg] []
    attTxtFail fetchW
    (StreamResult.ok [SChunk.content_delta "Hi", SChunk.finish "stop"])
    titleApiW convW rfl rfl rfl (by decide) rfl

/-- C10: `update_conversation` applies exactly the allow-listed keys (title,
systemPrompt, model, messageCount) from the supplied updates — any other key
is silently ignored — always refreshes `updatedAt`, leaves every other stored
field of the document unchanged, writes back only the target document, and
returns `None` without writing when the conversation is missing or not owned
by the user. -/
theorem C10_update_conversation_frame
    (store : List Doc) (cid uid now : String)
    (updates : List (String × Val)) :
    (get_conversation_doc store cid uid = none →
      update_conversation_docs store cid uid updates now = (none, store)) ∧
    (∀ d, get_conversation_doc store cid uid = some d →
      update_conversation_docs store cid uid updates now =
        (some (updatedDoc d updates now),
         store.map (fun e =>
           if isConvDoc e cid uid then updatedDoc d updates now else e)) ∧
      (∀ k, ¬ k ∈ allowed_updates → k ≠ "updatedAt" →
        dictGet (updatedDoc d updates now) k = dictGet d k) ∧
      dictGet (updatedDoc d updates now) "updatedAt" = some (Val.str now) ∧
      (∀ k, k ∈ allowed_updates →
        dictGet (updatedDoc d updates now) k =
          match lookupLast updates k with
          | some v => some v
          | none => dictGet d k)) := by
  constructor
  · intro h
    unfold update_conversation_docs
    rw [h]
  · intro d hd
    refine ⟨?_, ?_, ?_, ?_⟩
    · unfold update_conversation_docs
      rw [hd]
    · intro k hk hk2
      unfold updatedDoc
      rw [dictGet_dictSet_ne _ _ _ _ hk2,
        applyAllowedUpdates_not_allowed _ _ _ hk]
    · exact dictGet_dictSet_self _ _ _
    · intro k hk
      have hne : k ≠ "updatedAt" := by
        intro he
        rw [he] at hk
        exact (by decide : ¬ "updatedAt" ∈ allowed_updates) hk
      unfold updatedDoc
      rw [dictGet_dictSet_ne _ _ _ _ hne]
      exact applyAllowedUpdates_allowed d updates k hk

/-- A conversation document fixture (all fields created by
`create_conversation`). -/
def docC10 : Doc :=
  [("id", Val.str "c9"), ("userId", Val.str "u1"), ("title", Val.str "t0"),
   ("systemPrompt", Val.str "sp"), ("model", Val.str "gpt-4o"),
   ("messageCount", Val.nat 4), ("createdAt", Val.str "T0"),
   ("updatedAt", Val.str "T0")]

/-- A store holding only `docC10`. -/
def storeC10 : List Doc := [docC10]

/-- An update dictionary mixing allow-listed keys with a foreign key and an
identity field. -/
def updatesC10 : List (String × Val) :=
  [("title", Val.str "t1"), ("messageCount", Val.nat 6),
   ("hacked", Val.str "x"), ("userId", Val.str "attacker")]

/-- Concrete instantiation of `C10_update_conversation_frame`: the foreign
key and the identity field are ignored, the allow-listed keys are applied,
`updatedAt` is refreshed, untouched allow-listed fields keep their values. -/
theorem C10_witness :
    update_conversation_docs storeC10 "c9" "u1" updatesC10 "T1" =
      (some (updatedDoc docC10 updatesC10 "T1"),
       storeC10.map (fun e =>
         if isConvDoc e "c9" "u1" then updatedDoc docC10 updatesC10 "T1"
         else e)) ∧
    dictGet (updatedDoc docC10 updatesC10 "T1") "userId" =
      dictGet docC10 "userId" ∧
    dictGet (updatedDoc docC10 updatesC10 "T1") "hacked" =
      dictGet docC10 "hacked" ∧
    dictGet (updatedDoc docC10 updatesC10 "T1") "updatedAt" =
      some (Val.str "T1") ∧
    dictGet (updatedDoc docC10 updatesC10 "T1") "title" =
      some (Val.str "t1") ∧
    dictGet (updatedDoc docC10 updatesC10 "T1") "messageCount" =
      some (Val.nat 6) ∧
    dictGet (updatedDoc docC10 updatesC10 "T1") "systemPrompt" =
      dictGet docC10 "systemPrompt" := by
  have h := (C10_update_conversation_frame storeC10 "c9" "u1" "T1"
    updatesC10).2 docC10 rfl
  exact ⟨h.1, h.2.1 "userId" (by decide) (by decide),
    h.2.1 "hacked" (by decide) (by decide), h.2.2.1,
    h.2.2.2 "title" (by decide), h.2.2.2 "messageCount" (by decide),
    h.2.2.2 "systemPrompt" (by decide)⟩

end AIChat
